import Mathlib

/-!
Shallow embedding of plex_logos.py: a batch job that resolves each Plex
music artist to a MusicBrainz ID, fetches a logo from Fanart.tv with
fuzzy-name validation and HD-over-SD asset priority, normalizes the image
onto a square black canvas, and tracks per-artist outcomes in a stats
aggregate.  External collaborators (HTTP transport, the rapidfuzz scorer,
PIL decoding, the Plex client) are modelled as explicit inputs: the
scorer is a function parameter, provider responses and per-artist
failure modes are oracle values, and the filesystem is a list of
existing paths.  Side effects of one artist's processing are recorded
as an explicit event trace.
-/

/-- Characters removed by sanitize, from the regex character class
in plex_logos.py line 49. -/
def illegalChars : List Char := ['\\', '/', '*', '?', ':', '"', '<', '>', '|']

/-- Whitespace recognized by Python str.strip: the CPython whitespace
table (tab through carriage return, the C1 separators 1C-1F, space,
next line 85, no-break space A0, ogham space 1680, the 2000-200A
spaces, line and paragraph separators 2028-2029, narrow no-break space
202F, medium mathematical space 205F and ideographic space 3000). -/
def pyIsSpace (c : Char) : Bool :=
  (0x09 ≤ c.toNat && c.toNat ≤ 0x0D) ||
  (0x1C ≤ c.toNat && c.toNat ≤ 0x1F) ||
  c.toNat == 0x20 || c.toNat == 0x85 || c.toNat == 0xA0 ||
  c.toNat == 0x1680 ||
  (0x2000 ≤ c.toNat && c.toNat ≤ 0x200A) ||
  c.toNat == 0x2028 || c.toNat == 0x2029 || c.toNat == 0x202F ||
  c.toNat == 0x205F || c.toNat == 0x3000

/-- Python str.strip at the character-list level: drop leading and
trailing whitespace. -/
def pyStrip (l : List Char) : List Char :=
  ((l.dropWhile pyIsSpace).reverse.dropWhile pyIsSpace).reverse

/-- sanitize (plex_logos.py lines 47-49): remove the illegal characters
anywhere in the name, then strip surrounding whitespace. -/
def sanitize (name : String) : String :=
  String.mk (pyStrip (name.toList.filter (fun c => !illegalChars.contains c)))

/-- Tests whether the first list is a leading segment of the second
(Python str startswith at a position, used to scan for a substring). -/
def leadsWith : List Char → List Char → Bool
  | [], _ => true
  | _ :: _, [] => false
  | p :: ps, c :: cs => p == c && leadsWith ps cs

/-- Python substring membership, pat in s, as a scan over the list. -/
def hasSub (pat : List Char) : List Char → Bool
  | [] => pat.isEmpty
  | c :: rest => leadsWith pat (c :: rest) || hasSub pat rest

/-- Python s.split with the fixed separator of plex_logos.py line 129,
the three characters colon slash slash: left-to-right scan, cutting at
each separator occurrence. -/
def splitOnSep : List Char → List (List Char)
  | [] => [[]]
  | ':' :: '/' :: '/' :: rest => [] :: splitOnSep rest
  | c :: rest =>
    match splitOnSep rest with
    | [] => [[c]]
    | h :: t => (c :: h) :: t

/-- Python g.split(sep)[-1] for the scheme separator: the text after the
last separator occurrence (the whole string when none occurs). -/
def stripScheme (g : String) : String :=
  String.mk ((splitOnSep g.toList).getLastD [])

/-- MBID extraction (plex_logos.py line 129): the first guid containing
the marker mbid as a substring, with everything up to the separator
stripped; none when no guid matches. -/
def extractMbid (guids : List String) : Option String :=
  (guids.find? (fun g => hasSub "mbid".toList g.toList)).map stripScheme

/-- One Fanart.tv asset entry: only its url field is read. -/
structure Asset where
  url : String
deriving DecidableEq

/-- Parsed JSON body of a 200 response (plex_logos.py lines 62-71):
name is data.get with default Unknown, the two asset lists are data.get
with default empty list. -/
structure FanartData where
  name : Option String
  hdmusiclogo : List Asset
  musiclogo : List Asset
deriving DecidableEq

/-- Outcome of the requests.get call in get_logo: a transport-level
response carrying a status code and (when the status is 200) a parsed
body, or an exception caught by the surrounding try. -/
inductive FanartResponse where
  | httpResp (status : Nat) (data : FanartData)
  | connError (msg : String)
deriving DecidableEq

/-- get_logo (plex_logos.py lines 51-82), with the HTTP call abstracted
into the response argument and the rapidfuzz token_sort_ratio scorer
abstracted as the fuzz function (score compared against the threshold
exactly as in the source).  Returns the (optional url, message) pair of
the source. -/
def get_logo (threshold : Nat) (fuzz : String → String → Nat)
    (plex_name : String) (resp : FanartResponse) : Option String × String :=
  match resp with
  | .connError e => (none, "Connection Error: " ++ e)
  | .httpResp status data =>
    if status = 404 then
      (none, "Artist MBID not found in Fanart.tv database")
    else if status = 200 then
      let fanart_name := data.name.getD "Unknown"
      let score := fuzz plex_name fanart_name
      if score < threshold then
        (none, "Fuzzy Match Failed (Score: " ++ toString score ++
          ", Fanart Name: \x27" ++ fanart_name ++ "\x27)")
      else
        match data.hdmusiclogo with
        | h :: _ => (some h.url, "Success (HD) - Match: " ++ toString score ++ "%")
        | [] =>
          match data.musiclogo with
          | s :: _ => (some s.url, "Success (SD Fallback) - Match: " ++ toString score ++ "%")
          | [] => (none, "Artist exists on Fanart, but has no Logo assets (only backgrounds/art)")
    else
      (none, "API Error (Status: " ++ toString status ++ ")")

/-- A decoded RGBA source pixel, channels 0-255. -/
structure PixelRGBA where
  r : Nat
  g : Nat
  b : Nat
  a : Nat
deriving DecidableEq

/-- An RGB canvas pixel. -/
structure PixelRGB where
  r : Nat
  g : Nat
  b : Nat
deriving DecidableEq

/-- A decoded RGBA image: dimensions plus a pixel map. -/
structure SourceImage where
  width : Nat
  height : Nat
  px : Nat → Nat → PixelRGBA

/-- The RGB canvas produced by process_image. -/
structure CanvasImage where
  width : Nat
  height : Nat
  px : Nat → Nat → PixelRGB

/-- PIL MULDIV255 rounding primitive used by Image.paste with a mask:
t = x*m + 128, result (t div 256 + t) div 256. -/
def muldiv255 (x m : Nat) : Nat :=
  ((x * m + 128) / 256 + (x * m + 128)) / 256

/-- PIL per-channel blend for paste with an alpha mask:
dst weighted by 255 - alpha plus src weighted by alpha. -/
def blendChannel (dst src mask : Nat) : Nat :=
  muldiv255 dst (255 - mask) + muldiv255 src mask

/-- The solid black background of the canvas (plex_logos.py line 93). -/
def blackPixel : PixelRGB := ⟨0, 0, 0⟩

/-- One pasted pixel: each channel blended by the source alpha. -/
def pastePixel (dst : PixelRGB) (src : PixelRGBA) : PixelRGB :=
  ⟨blendChannel dst.r src.r src.a,
   blendChannel dst.g src.g src.a,
   blendChannel dst.b src.b src.a⟩

/-- process_image (plex_logos.py lines 84-103), the pure transform on a
successfully downloaded and decoded RGBA image: side = max of the two
dimensions, black RGB canvas of that side, source pasted at the
half-difference floor offset using its own alpha as mask. -/
def process_image (img : SourceImage) : CanvasImage :=
  let side := max img.width img.height
  let ox := (side - img.width) / 2
  let oy := (side - img.height) / 2
  { width := side
    height := side
    px := fun x y =>
      if ox ≤ x ∧ x < ox + img.width ∧ oy ≤ y ∧ y < oy + img.height then
        pastePixel blackPixel (img.px (x - ox) (y - oy))
      else
        blackPixel }

/-- Output root (plex_logos.py line 21). -/
def BASE_OUTPUT_DIR : String := "/app/ArtistLogos"

/-- A Plex artist as read by the loop: display title and guid id
strings. -/
structure Artist where
  title : String
  guids : List String
deriving DecidableEq

/-- Run configuration read from the environment. -/
structure Config where
  updatePlex : Bool
  forceRefresh : Bool
  threshold : Nat
deriving DecidableEq

/-- The stats dict of plex_logos.py lines 38-45. -/
structure Stats where
  total_scanned : Nat
  already_exists_skipped : Nat
  new_downloads : Nat
  plex_posters_updated : Nat
  not_found_list : List String
  errors : Nat
deriving DecidableEq

/-- Observable side effects of one artist's processing: the Fanart API
request, directory creation, the image download and write, the Plex
poster upload, and error log lines. -/
inductive Event where
  | apiFetch (mbid : String)
  | makedirs (dir : String)
  | downloadImage (url : String)
  | writeImage (path : String)
  | uploadPoster (path : String)
  | logError (msg : String)
deriving DecidableEq

/-- Per-artist oracle for the external world: the Fanart response the
provider would give, whether process_image succeeds, whether
uploadPoster raises, and whether reading the guids raises (the
unhandled-exception case of the outer try of lines 117-157, placed at
the first collaborator access after the skip check). -/
structure Oracle where
  resp : FanartResponse
  processImageOk : Bool
  uploadExn : Option String
  guidsExn : Option String
deriving DecidableEq

/-- os.path.join(BASE_OUTPUT_DIR, clean_name) of line 120. -/
def artistDir (a : Artist) : String := BASE_OUTPUT_DIR ++ "/" ++ sanitize a.title

/-- os.path.join(artist_dir, "artist.jpg") of line 121. -/
def imgPath (a : Artist) : String := artistDir a ++ "/artist.jpg"

/-- One iteration of the main loop (plex_logos.py lines 117-157) over
one artist: returns the updated stats, the updated set of existing
paths, and the trace of effects, in source order: skip check, guid
read (the modelled unhandled-exception point), MBID extraction,
get_logo, makedirs, process_image, optional uploadPoster. -/
def processArtist (cfg : Config) (fuzz : String → String → Nat)
    (a : Artist) (o : Oracle) (st : Stats) (fs : List String) :
    Stats × List String × List Event :=
  if fs.contains (imgPath a) && !cfg.forceRefresh then
    ({ st with already_exists_skipped := st.already_exists_skipped + 1 }, fs, [])
  else
    match o.guidsExn with
    | some e =>
      ({ st with errors := st.errors + 1 }, fs,
       [Event.logError ("Critical error on " ++ a.title ++ ": " ++ e)])
    | none =>
      match extractMbid a.guids with
      | none =>
        ({ st with not_found_list :=
            st.not_found_list ++ [a.title ++ " | Plex has no MusicBrainz ID for this artist"] },
         fs, [])
      | some mbid =>
        match get_logo cfg.threshold fuzz a.title o.resp with
        | (some url, _result_msg) =>
          let fs1 := fs ++ [artistDir a]
          if o.processImageOk then
            let fs2 := fs1 ++ [imgPath a]
            let st1 := { st with new_downloads := st.new_downloads + 1 }
            if cfg.updatePlex then
              match o.uploadExn with
              | none =>
                ({ st1 with plex_posters_updated := st1.plex_posters_updated + 1 }, fs2,
                 [Event.apiFetch mbid, Event.makedirs (artistDir a),
                  Event.downloadImage url, Event.writeImage (imgPath a),
                  Event.uploadPoster (imgPath a)])
              | some pe =>
                (st1, fs2,
                 [Event.apiFetch mbid, Event.makedirs (artistDir a),
                  Event.downloadImage url, Event.writeImage (imgPath a),
                  Event.logError ("Plex Upload Failed for " ++ a.title ++ ": " ++ pe)])
            else
              (st1, fs2,
               [Event.apiFetch mbid, Event.makedirs (artistDir a),
                Event.downloadImage url, Event.writeImage (imgPath a)])
          else
            (st, fs1,
             [Event.apiFetch mbid, Event.makedirs (artistDir a),
              Event.downloadImage url, Event.logError "Image Processing Error"])
        | (none, result_msg) =>
          ({ st with not_found_list := st.not_found_list ++ [a.title ++ " | " ++ result_msg] },
           fs, [Event.apiFetch mbid])

theorem pyStrip_sublist (l : List Char) : List.Sublist (pyStrip l) l := by
  have h1 : List.Sublist (l.dropWhile pyIsSpace) l := List.dropWhile_sublist _
  have h2 : List.Sublist ((l.dropWhile pyIsSpace).reverse.dropWhile pyIsSpace)
      (l.dropWhile pyIsSpace).reverse := List.dropWhile_sublist _
  have h3 := List.reverse_sublist.mpr h2
  rw [List.reverse_reverse] at h3
  exact h3.trans h1

theorem dropWhile_eq_self_of (p : Char → Bool) (l : List Char)
    (h : ∀ c ∈ l, p c = false) : l.dropWhile p = l := by
  cases l with
  | nil => rfl
  | cons a t => simp [List.dropWhile_cons, h a (by simp)]

theorem pyStrip_eq_self (l : List Char) (h : ∀ c ∈ l, pyIsSpace c = false) :
    pyStrip l = l := by
  unfold pyStrip
  rw [dropWhile_eq_self_of _ _ h, dropWhile_eq_self_of, List.reverse_reverse]
  intro c hc
  exact h c (by simpa using hc)

theorem mk_toList_eq (s : String) : String.mk s.toList = s := by cases s; rfl

theorem head?_dropWhile_not (p : Char → Bool) :
    ∀ (l : List Char) (c : Char), (l.dropWhile p).head? = some c → p c = false := by
  intro l
  induction l with
  | nil => intro c h; cases h
  | cons a t ih =>
    intro c h
    rw [List.dropWhile_cons] at h
    by_cases hp : p a = true
    · rw [if_pos hp] at h
      exact ih c h
    · rw [if_neg hp] at h
      simp at h
      subst h
      cases hpa : p a with
      | true => exact absurd hpa hp
      | false => rfl

theorem pyStrip_append_eq (l : List Char) :
    pyStrip l ++ ((l.dropWhile pyIsSpace).reverse.takeWhile pyIsSpace).reverse =
      l.dropWhile pyIsSpace := by
  have h2 := List.takeWhile_append_dropWhile pyIsSpace (l.dropWhile pyIsSpace).reverse
  have h3 := congrArg List.reverse h2
  rw [List.reverse_append, List.reverse_reverse] at h3
  exact h3

theorem pyStrip_decomp (l : List Char) :
    ∃ pre post, l = pre ++ pyStrip l ++ post ∧
      (∀ c ∈ pre, pyIsSpace c = true) ∧ (∀ c ∈ post, pyIsSpace c = true) := by
  refine ⟨l.takeWhile pyIsSpace,
    ((l.dropWhile pyIsSpace).reverse.takeWhile pyIsSpace).reverse, ?_, ?_, ?_⟩
  · conv_lhs => rw [← List.takeWhile_append_dropWhile pyIsSpace l, ← pyStrip_append_eq l]
    rw [List.append_assoc]
  · intro c hc
    exact List.mem_takeWhile_imp hc
  · intro c hc
    rw [List.mem_reverse] at hc
    exact List.mem_takeWhile_imp hc

theorem pyStrip_head_not_space (l : List Char) (c : Char)
    (h : (pyStrip l).head? = some c) : pyIsSpace c = false := by
  apply head?_dropWhile_not pyIsSpace l c
  rw [← pyStrip_append_eq l]
  cases hs : pyStrip l with
  | nil => rw [hs] at h; cases h
  | cons a t =>
    rw [hs] at h
    simp at h
    subst h
    rfl

theorem pyStrip_last_not_space (l : List Char) (c : Char)
    (h : (pyStrip l).getLast? = some c) : pyIsSpace c = false := by
  rw [← List.head?_reverse] at h
  unfold pyStrip at h
  rw [List.reverse_reverse] at h
  exact head?_dropWhile_not pyIsSpace (l.dropWhile pyIsSpace).reverse c h

set_option maxRecDepth 4000 in
theorem muldiv255_full (c : Nat) (h : c < 256) : muldiv255 c 255 = c := by
  revert h
  revert c
  decide

theorem blendChannel_over_black (c : Nat) (h : c < 256) : blendChannel 0 c 255 = c := by
  unfold blendChannel
  rw [muldiv255_full c h]
  norm_num [muldiv255]

theorem pastePixel_opaque (p : PixelRGBA) (ha : p.a = 255)
    (hr : p.r < 256) (hg : p.g < 256) (hb : p.b < 256) :
    pastePixel blackPixel p = ⟨p.r, p.g, p.b⟩ := by
  unfold pastePixel blackPixel
  rw [ha, blendChannel_over_black _ hr, blendChannel_over_black _ hg,
    blendChannel_over_black _ hb]

/-- C1: for every fuzzy similarity score strictly below the threshold,
get_logo returns no asset URL regardless of the hd and sd asset lists,
and the diagnostic carries the score and the provider-reported name;
a score equal to the threshold is not rejected, proceeding to the
ordinary asset selection. -/
theorem get_logo_rejects_below_threshold (threshold : Nat)
    (fuzz : String → String → Nat) (plex_name : String) (data : FanartData) :
    (fuzz plex_name (data.name.getD "Unknown") < threshold →
      get_logo threshold fuzz plex_name (.httpResp 200 data) =
        (none, "Fuzzy Match Failed (Score: " ++
          toString (fuzz plex_name (data.name.getD "Unknown")) ++
          ", Fanart Name: \x27" ++ data.name.getD "Unknown" ++ "\x27)")) ∧
    (fuzz plex_name (data.name.getD "Unknown") = threshold →
      (get_logo threshold fuzz plex_name (.httpResp 200 data)).1 =
        (data.hdmusiclogo ++ data.musiclogo).head?.map Asset.url) := by
  constructor
  · intro hlt
    simp [get_logo, hlt]
  · intro heq
    have hnlt : ¬ (fuzz plex_name (data.name.getD "Unknown") < threshold) := by omega
    cases hhd : data.hdmusiclogo with
    | cons h t => simp [get_logo, hnlt, hhd]
    | nil =>
      cases hsd : data.musiclogo with
      | cons s t => simp [get_logo, hnlt, hhd, hsd]
      | nil => simp [get_logo, hnlt, hhd, hsd]

/-- Concrete provider payload used by the get_logo witnesses. -/
def sampleData : FanartData := ⟨some "Queen", [⟨"hd1"⟩], [⟨"sd1"⟩]⟩

/-- Witness for C1 at a concrete payload: score 10 below threshold 90
rejects despite available assets; score exactly 90 selects the HD
asset. -/
theorem get_logo_rejects_below_threshold_witness :
    get_logo 90 (fun _ _ => 10) "Queen" (.httpResp 200 sampleData) =
      (none, "Fuzzy Match Failed (Score: 10, Fanart Name: \x27Queen\x27)") ∧
    (get_logo 90 (fun _ _ => 90) "Queen" (.httpResp 200 sampleData)).1 = some "hd1" := by
  constructor
  · exact (get_logo_rejects_below_threshold 90 (fun _ _ => 10) "Queen" sampleData).1
      (by decide)
  · have h := (get_logo_rejects_below_threshold 90 (fun _ _ => 90) "Queen" sampleData).2 rfl
    simpa [sampleData] using h

/-- C2: on an accepted match, the first HD asset wins whenever the HD
list is non-empty; with no HD asset the first SD asset is selected and
the diagnostic says SD Fallback; with neither list populated the result
is none with the no-logo-asset diagnostic. -/
theorem get_logo_asset_priority (threshold : Nat) (fuzz : String → String → Nat)
    (plex_name : String) (data : FanartData)
    (hacc : threshold ≤ fuzz plex_name (data.name.getD "Unknown")) :
    (∀ h t, data.hdmusiclogo = h :: t →
      get_logo threshold fuzz plex_name (.httpResp 200 data) =
        (some h.url, "Success (HD) - Match: " ++
          toString (fuzz plex_name (data.name.getD "Unknown")) ++ "%")) ∧
    (data.hdmusiclogo = [] → ∀ s t, data.musiclogo = s :: t →
      get_logo threshold fuzz plex_name (.httpResp 200 data) =
        (some s.url, "Success (SD Fallback) - Match: " ++
          toString (fuzz plex_name (data.name.getD "Unknown")) ++ "%")) ∧
    (data.hdmusiclogo = [] → data.musiclogo = [] →
      get_logo threshold fuzz plex_name (.httpResp 200 data) =
        (none, "Artist exists on Fanart, but has no Logo assets (only backgrounds/art)")) := by
  have hnlt : ¬ (fuzz plex_name (data.name.getD "Unknown") < threshold) := by omega
  refine ⟨?_, ?_, ?_⟩
  · intro h t hhd
    simp [get_logo, hnlt, hhd]
  · intro hhd s t hsd
    simp [get_logo, hnlt, hhd, hsd]
  · intro hhd hsd
    simp [get_logo, hnlt, hhd, hsd]

/-- Witness for C2: with both lists populated and an accepted score,
the HD asset is selected. -/
theorem get_logo_asset_priority_witness :
    get_logo 90 (fun _ _ => 95) "Queen" (.httpResp 200 sampleData) =
      (some "hd1", "Success (HD) - Match: 95%") := by
  exact (get_logo_asset_priority 90 (fun _ _ => 95) "Queen" sampleData
    (by decide)).1 ⟨"hd1"⟩ [] (by decide)

/-- C7: sanitize only removes the illegal characters and trims
surrounding whitespace: every output character is legal, the output is
a subsequence of the input, the output is exactly the
illegal-character-filtered input with an all-whitespace prefix and an
all-whitespace suffix removed, the result neither starts nor ends with
whitespace, a name with no illegal character and no whitespace is left
unchanged, and the concrete name of the spec sanitizes as stated, with
or without surrounding whitespace. -/
theorem sanitize_spec (s : String) :
    (∀ c ∈ (sanitize s).toList, illegalChars.contains c = false) ∧
    List.Sublist (sanitize s).toList s.toList ∧
    (∃ pre post,
      s.toList.filter (fun c => !illegalChars.contains c) =
        pre ++ (sanitize s).toList ++ post ∧
      (∀ c ∈ pre, pyIsSpace c = true) ∧ (∀ c ∈ post, pyIsSpace c = true)) ∧
    (∀ c, (sanitize s).toList.head? = some c → pyIsSpace c = false) ∧
    (∀ c, (sanitize s).toList.getLast? = some c → pyIsSpace c = false) ∧
    ((∀ c ∈ s.toList, illegalChars.contains c = false ∧ pyIsSpace c = false) →
      sanitize s = s) ∧
    sanitize "A/B:C?" = "ABC" ∧ sanitize " A/B:C? " = "ABC" := by
  have htl : (sanitize s).toList =
      pyStrip (s.toList.filter (fun c => !illegalChars.contains c)) := rfl
  refine ⟨?_, ?_, ?_, ?_, ?_, ?_, by decide, by decide⟩
  · intro c hc
    rw [htl] at hc
    have hmem := (pyStrip_sublist _).subset hc
    have := (List.mem_filter.mp hmem).2
    simpa using this
  · rw [htl]
    exact (pyStrip_sublist _).trans (List.filter_sublist _)
  · rw [htl]
    exact pyStrip_decomp _
  · intro c hc
    rw [htl] at hc
    exact pyStrip_head_not_space _ c hc
  · intro c hc
    rw [htl] at hc
    exact pyStrip_last_not_space _ c hc
  · intro h
    have hfil : s.toList.filter (fun c => !illegalChars.contains c) = s.toList :=
      List.filter_eq_self.mpr (fun c hc => by simpa using (h c hc).1)
    unfold sanitize
    rw [hfil, pyStrip_eq_self _ (fun c hc => (h c hc).2), mk_toList_eq]

/-- Witness for C7: a name with surrounding whitespace and illegal
characters is trimmed and cleaned to ABC, and a clean name is left
unchanged. -/
theorem sanitize_spec_witness :
    sanitize " A/B:C? " = "ABC" ∧ sanitize "Queen" = "Queen" := by
  exact ⟨(sanitize_spec " A/B:C? ").2.2.2.2.2.2.2,
    (sanitize_spec "Queen").2.2.2.2.2.1 (by decide)⟩

/-- C4: the canvas is exactly square with side max(width, height);
every pixel outside the band at the floor half-difference offset is
pure black; every pixel inside the band is the source pixel pasted over
black by its alpha, so a fully opaque in-range source pixel appears
unchanged. -/
theorem process_image_square_centered (img : SourceImage) :
    (process_image img).width = max img.width img.height ∧
    (process_image img).height = max img.width img.height ∧
    (∀ x y,
      ¬ ((max img.width img.height - img.width) / 2 ≤ x ∧
         x < (max img.width img.height - img.width) / 2 + img.width ∧
         (max img.width img.height - img.height) / 2 ≤ y ∧
         y < (max img.width img.height - img.height) / 2 + img.height) →
      (process_image img).px x y = blackPixel) ∧
    (∀ x y,
      (max img.width img.height - img.width) / 2 ≤ x →
      x < (max img.width img.height - img.width) / 2 + img.width →
      (max img.width img.height - img.height) / 2 ≤ y →
      y < (max img.width img.height - img.height) / 2 + img.height →
      (process_image img).px x y =
        pastePixel blackPixel
          (img.px (x - (max img.width img.height - img.width) / 2)
            (y - (max img.width img.height - img.height) / 2)) ∧
      ((img.px (x - (max img.width img.height - img.width) / 2)
          (y - (max img.width img.height - img.height) / 2)).a = 255 →
       (img.px (x - (max img.width img.height - img.width) / 2)
          (y - (max img.width img.height - img.height) / 2)).r < 256 →
       (img.px (x - (max img.width img.height - img.width) / 2)
          (y - (max img.width img.height - img.height) / 2)).g < 256 →
       (img.px (x - (max img.width img.height - img.width) / 2)
          (y - (max img.width img.height - img.height) / 2)).b < 256 →
       (process_image img).px x y =
         ⟨(img.px (x - (max img.width img.height - img.width) / 2)
             (y - (max img.width img.height - img.height) / 2)).r,
          (img.px (x - (max img.width img.height - img.width) / 2)
             (y - (max img.width img.height - img.height) / 2)).g,
          (img.px (x - (max img.width img.height - img.width) / 2)
             (y - (max img.width img.height - img.height) / 2)).b⟩)) := by
  refine ⟨rfl, rfl, ?_, ?_⟩
  · intro x y hout
    simp only [process_image]
    rw [if_neg hout]
  · intro x y hx1 hx2 hy1 hy2
    have hin : (max img.width img.height - img.width) / 2 ≤ x ∧
        x < (max img.width img.height - img.width) / 2 + img.width ∧
        (max img.width img.height - img.height) / 2 ≤ y ∧
        y < (max img.width img.height - img.height) / 2 + img.height :=
      ⟨hx1, hx2, hy1, hy2⟩
    have hpx : (process_image img).px x y =
        pastePixel blackPixel
          (img.px (x - (max img.width img.height - img.width) / 2)
            (y - (max img.width img.height - img.height) / 2)) := by
      simp only [process_image]
      rw [if_pos hin]
    refine ⟨hpx, ?_⟩
    intro ha hr hg hb
    rw [hpx, pastePixel_opaque _ ha hr hg hb]

/-- A concrete 100 by 200 fully opaque source image, for the C4
witness. -/
def sampleImage : SourceImage := ⟨100, 200, fun _ _ => ⟨10, 20, 30, 255⟩⟩

/-- Witness for C4 at the 100 by 200 source of the spec: the output is
200 by 200, pixels left and right of the centered 100-wide band are
black, and an in-band pixel keeps its original channels. -/
theorem process_image_square_centered_witness :
    (process_image sampleImage).width = 200 ∧
    (process_image sampleImage).height = 200 ∧
    (process_image sampleImage).px 49 0 = blackPixel ∧
    (process_image sampleImage).px 150 199 = blackPixel ∧
    (process_image sampleImage).px 50 0 = ⟨10, 20, 30⟩ ∧
    (process_image sampleImage).px 149 199 = ⟨10, 20, 30⟩ := by
  have h := process_image_square_centered sampleImage
  refine ⟨h.1, h.2.1, ?_, ?_, ?_, ?_⟩
  · exact h.2.2.1 49 0 (by decide)
  · exact h.2.2.1 150 199 (by decide)
  · exact ((h.2.2.2 50 0 (by decide) (by decide) (by decide) (by decide)).2
      rfl (by decide) (by decide) (by decide))
  · exact ((h.2.2.2 149 199 (by decide) (by decide) (by decide) (by decide)).2
      rfl (by decide) (by decide) (by decide))

/-! Branch equations for processArtist, shared by the loop-level claim
theorems. -/

theorem processArtist_skip (cfg : Config) (fuzz : String → String → Nat)
    (a : Artist) (o : Oracle) (st : Stats) (fs : List String)
    (hc : (fs.contains (imgPath a) && !cfg.forceRefresh) = true) :
    processArtist cfg fuzz a o st fs =
      ({ st with already_exists_skipped := st.already_exists_skipped + 1 }, fs, []) := by
  unfold processArtist
  rw [hc]
  rfl

theorem processArtist_exnBranch (cfg : Config) (fuzz : String → String → Nat)
    (a : Artist) (o : Oracle) (st : Stats) (fs : List String) (e : String)
    (hc : (fs.contains (imgPath a) && !cfg.forceRefresh) = false)
    (he : o.guidsExn = some e) :
    processArtist cfg fuzz a o st fs =
      ({ st with errors := st.errors + 1 }, fs,
       [Event.logError ("Critical error on " ++ a.title ++ ": " ++ e)]) := by
  unfold processArtist
  rw [hc, he]
  rfl

theorem processArtist_noMbid (cfg : Config) (fuzz : String → String → Nat)
    (a : Artist) (o : Oracle) (st : Stats) (fs : List String)
    (hc : (fs.contains (imgPath a) && !cfg.forceRefresh) = false)
    (he : o.guidsExn = none) (hm : extractMbid a.guids = none) :
    processArtist cfg fuzz a o st fs =
      ({ st with not_found_list :=
          st.not_found_list ++ [a.title ++ " | Plex has no MusicBrainz ID for this artist"] },
       fs, []) := by
  unfold processArtist
  rw [hc, he, hm]
  rfl

theorem processArtist_noLogo (cfg : Config) (fuzz : String → String → Nat)
    (a : Artist) (o : Oracle) (st : Stats) (fs : List String) (mbid msg : String)
    (hc : (fs.contains (imgPath a) && !cfg.forceRefresh) = false)
    (he : o.guidsExn = none) (hm : extractMbid a.guids = some mbid)
    (hg : get_logo cfg.threshold fuzz a.title o.resp = (none, msg)) :
    processArtist cfg fuzz a o st fs =
      ({ st with not_found_list := st.not_found_list ++ [a.title ++ " | " ++ msg] },
       fs, [Event.apiFetch mbid]) := by
  unfold processArtist
  rw [hc, he, hm, hg]
  rfl

/-- The initial stats value of plex_logos.py lines 38-45 (total_scanned
not yet set), used by concrete witnesses. -/
def stats0 : Stats := ⟨0, 0, 0, 0, [], 0⟩

/-- C3: the identifier resolver returns the first guid containing the
provider marker, scheme part stripped; when no guid matches it returns
none, the loop records the artist as not-found and its trace holds no
provider fetch. -/
theorem extractMbid_first_match :
    (∀ (pre : List String) (g : String) (post : List String),
      (∀ g1 ∈ pre, hasSub "mbid".toList g1.toList = false) →
      hasSub "mbid".toList g.toList = true →
      extractMbid (pre ++ g :: post) = some (stripScheme g)) ∧
    (∀ guids : List String, (∀ g ∈ guids, hasSub "mbid".toList g.toList = false) →
      extractMbid guids = none) ∧
    (∀ (cfg : Config) (fuzz : String → String → Nat) (a : Artist) (o : Oracle)
        (st : Stats) (fs : List String),
      (fs.contains (imgPath a) && !cfg.forceRefresh) = false →
      o.guidsExn = none → extractMbid a.guids = none →
      processArtist cfg fuzz a o st fs =
        ({ st with not_found_list :=
            st.not_found_list ++ [a.title ++ " | Plex has no MusicBrainz ID for this artist"] },
         fs, [])) := by
  refine ⟨?_, ?_, ?_⟩
  · intro pre g post hpre hg
    unfold extractMbid
    rw [List.find?_append]
    have h1 : pre.find? (fun g => hasSub "mbid".toList g.toList) = none :=
      List.find?_eq_none.mpr (fun x hx => by simpa using hpre x hx)
    rw [h1, List.find?_cons_of_pos (p := fun s => hasSub "mbid".toList s.toList) post hg]
    rfl
  · intro guids h
    unfold extractMbid
    rw [List.find?_eq_none.mpr (fun x hx => by simpa using h x hx)]
    rfl
  · intro cfg fuzz a o st fs hc he hm
    exact processArtist_noMbid cfg fuzz a o st fs hc he hm

/-- Witness for C3: the second guid is the first mbid match and is
returned stripped; a list with no match yields none; a matchless
artist is recorded not-found with an empty trace. -/
theorem extractMbid_first_match_witness :
    extractMbid ["plex://local/123", "mbid://abc99", "mbid://zzz"] = some "abc99" ∧
    extractMbid ["plex://local/123"] = none ∧
    processArtist ⟨false, false, 90⟩ (fun _ _ => 0) ⟨"NoId", ["plex://x"]⟩
        ⟨.connError "off", true, none, none⟩ stats0 [] =
      ({ stats0 with not_found_list :=
          stats0.not_found_list ++ ["NoId | Plex has no MusicBrainz ID for this artist"] },
       [], []) := by
  refine ⟨?_, ?_, ?_⟩
  · have h := extractMbid_first_match.1 ["plex://local/123"] "mbid://abc99" ["mbid://zzz"]
      (by decide) (by decide)
    have h2 : stripScheme "mbid://abc99" = "abc99" := by decide
    rw [h2] at h
    simpa using h
  · exact extractMbid_first_match.2.1 ["plex://local/123"] (by decide)
  · exact extractMbid_first_match.2.2 ⟨false, false, 90⟩ (fun _ _ => 0) ⟨"NoId", ["plex://x"]⟩
      ⟨.connError "off", true, none, none⟩ stats0 [] (by decide) rfl (by decide)

/-- C5: with the canonical image already on disk and force-refresh
disabled, processing an artist increments only the skip counter: stats
are otherwise unchanged, the filesystem is untouched and the trace is
empty, so a second run over the artist does no provider request,
download, write or upload. -/
theorem skip_branch_only_increments_skip (cfg : Config) (fuzz : String → String → Nat)
    (a : Artist) (o : Oracle) (st : Stats) (fs : List String)
    (hexists : fs.contains (imgPath a) = true) (hforce : cfg.forceRefresh = false) :
    processArtist cfg fuzz a o st fs =
      ({ st with already_exists_skipped := st.already_exists_skipped + 1 }, fs, []) :=
  processArtist_skip cfg fuzz a o st fs (by rw [hexists, hforce]; rfl)

/-- Witness for C5 at a concrete artist whose image path is already
present. -/
theorem skip_branch_only_increments_skip_witness :
    processArtist ⟨false, false, 90⟩ (fun _ _ => 0) ⟨"Queen", ["mbid://q1"]⟩
        ⟨.connError "off", true, none, none⟩ stats0 ["/app/ArtistLogos/Queen/artist.jpg"] =
      ({ stats0 with already_exists_skipped := 1 },
       ["/app/ArtistLogos/Queen/artist.jpg"], []) := by
  exact skip_branch_only_increments_skip ⟨false, false, 90⟩ (fun _ _ => 0)
    ⟨"Queen", ["mbid://q1"]⟩ ⟨.connError "off", true, none, none⟩ stats0
    ["/app/ArtistLogos/Queen/artist.jpg"] (by decide) rfl

/-- C9: sanitize is not injective: the distinct display names A/B and
AB share one sanitized name, hence one output directory and image
path, and an image already written for AB makes the loop take the skip
branch for A/B. -/
theorem sanitize_not_injective :
    sanitize "A/B" = sanitize "AB" ∧ ¬ "A/B" = "AB" ∧
    imgPath ⟨"A/B", []⟩ = imgPath ⟨"AB", []⟩ ∧
    processArtist ⟨false, false, 90⟩ (fun _ _ => 0) ⟨"A/B", []⟩
        ⟨.connError "off", true, none, none⟩ stats0 [imgPath ⟨"AB", []⟩] =
      ({ stats0 with already_exists_skipped := 1 }, [imgPath ⟨"AB", []⟩], []) := by
  refine ⟨by decide, by decide, by decide, ?_⟩
  decide

/-- C10: a directory creation or image write appears in an artist's
trace only when get_logo returned an asset URL (so never on the skip,
exception, missing-ID or unresolved branches); and whenever the artist
exits by the skip branch, an unresolved lookup or a missing ID, the
filesystem is unchanged and the trace holds no makedirs and no
write. -/
theorem makedirs_only_after_resolved (cfg : Config) (fuzz : String → String → Nat)
    (a : Artist) (o : Oracle) (st : Stats) (fs : List String) :
    ((∃ d, Event.makedirs d ∈ (processArtist cfg fuzz a o st fs).2.2) ∨
     (∃ p, Event.writeImage p ∈ (processArtist cfg fuzz a o st fs).2.2) →
      (get_logo cfg.threshold fuzz a.title o.resp).1.isSome = true) ∧
    ((fs.contains (imgPath a) && !cfg.forceRefresh) = true ∨
     (get_logo cfg.threshold fuzz a.title o.resp).1 = none ∨
     extractMbid a.guids = none →
      (processArtist cfg fuzz a o st fs).2.1 = fs ∧
      (∀ d, ¬ Event.makedirs d ∈ (processArtist cfg fuzz a o st fs).2.2) ∧
      (∀ p, ¬ Event.writeImage p ∈ (processArtist cfg fuzz a o st fs).2.2)) := by
  cases hc : (fs.contains (imgPath a) && !cfg.forceRefresh) with
  | true =>
    rw [processArtist_skip cfg fuzz a o st fs hc]
    constructor
    · rintro (⟨d, hd⟩ | ⟨p, hp⟩)
      · simp at hd
      · simp at hp
    · intro _
      refine ⟨rfl, ?_, ?_⟩ <;> intro x hx <;> simp at hx
  | false =>
    cases he : o.guidsExn with
    | some e =>
      rw [processArtist_exnBranch cfg fuzz a o st fs e hc he]
      constructor
      · rintro (⟨d, hd⟩ | ⟨p, hp⟩)
        · simp at hd
        · simp at hp
      · intro _
        refine ⟨rfl, ?_, ?_⟩ <;> intro x hx <;> simp at hx
    | none =>
      cases hm : extractMbid a.guids with
      | none =>
        rw [processArtist_noMbid cfg fuzz a o st fs hc he hm]
        constructor
        · rintro (⟨d, hd⟩ | ⟨p, hp⟩)
          · simp at hd
          · simp at hp
        · intro _
          refine ⟨rfl, ?_, ?_⟩ <;> intro x hx <;> simp at hx
      | some mbid =>
        cases hg : get_logo cfg.threshold fuzz a.title o.resp with
        | mk fst msg =>
          cases fst with
          | none =>
            rw [processArtist_noLogo cfg fuzz a o st fs mbid msg hc he hm hg]
            constructor
            · rintro (⟨d, hd⟩ | ⟨p, hp⟩)
              · simp at hd
              · simp at hp
            · intro _
              refine ⟨rfl, ?_, ?_⟩ <;> intro x hx <;> simp at hx
          | some url =>
            constructor
            · intro _
              rfl
            · intro h
              rcases h with h | h | h
              · simp at h
              · simp at h
              · simp at h

/-- Witness for C10: an artist whose lookup answers 404 leaves the
filesystem unchanged and a trace with no directory creation. -/
theorem makedirs_only_after_resolved_witness :
    (processArtist ⟨false, false, 90⟩ (fun _ _ => 0) ⟨"Queen", ["mbid://q1"]⟩
        ⟨.httpResp 404 ⟨none, [], []⟩, true, none, none⟩ stats0 []).2.1 = ([] : List String) ∧
    (∀ d, ¬ Event.makedirs d ∈ (processArtist ⟨false, false, 90⟩ (fun _ _ => 0)
        ⟨"Queen", ["mbid://q1"]⟩ ⟨.httpResp 404 ⟨none, [], []⟩, true, none, none⟩
        stats0 []).2.2) := by
  have h := (makedirs_only_after_resolved ⟨false, false, 90⟩ (fun _ _ => 0)
      ⟨"Queen", ["mbid://q1"]⟩ ⟨.httpResp 404 ⟨none, [], []⟩, true, none, none⟩
      stats0 []).2 (Or.inr (Or.inl (by decide)))
  exact ⟨h.1, h.2.1⟩
